import Mathlib

/-!
Verification development for the MvTec anomaly-detection dataset layer
(`fcdd/datasets/mvtec_base.py`).  The file shallowly embeds the dataset
builder (`MvTec.download`), the construction of an indexed sample view
(`MvTec.__init__`), sample retrieval (`MvTec.__getitem__`) and the
original-resolution ground-truth accessor
(`MvTec.get_original_gtmaps_normal_class`), and proves properties of the
embedded definitions.

Modelling conventions:
* A byte tensor is a list of integers; arithmetic that torch performs on
  `uint8` tensors is taken modulo 256.
* An image (`Img`) records its spatial pixel count `hw` (the number of
  pixels of one channel, H*W) and its flattened channel-major pixel data.
  The PIL round-trip in `__getitem__` (lines 93-94) only permutes the
  memory layout, so it is the identity in this value-level model.
* A ground-truth mask is a single-channel tensor: a flat `List Int`.
* Externally supplied transforms are optional Lean functions.  The code's
  dtype fix-ups after `all_transform` (lines 88-89) only act on non-byte
  tensors; the model works with byte-valued tensors throughout, on which
  those branches are the identity.
* Failures (Python `assert`, calling `None`, out-of-range indexing) are
  modelled by `Option`: a crash is `none`.
* `torchvision` transform pipelines are reified as a list of transform
  kinds together with their action, so that the `isinstance` precondition
  of the accessor (line 176) is expressible.
* The original-resolution maps are divided by 255 (line 180), producing a
  float tensor; the model uses exact rationals for those values.
-/

/-- An image tensor: `hw` is the spatial size (number of pixels of one
channel) and `pix` the flattened channel-major byte data. -/
structure Img where
  hw : Nat
  pix : List Int
deriving DecidableEq

/-- `torch.zeros_like(sample)` (line 137). -/
def zerosLike (im : Img) : Img :=
  ⟨im.hw, List.replicate im.pix.length 0⟩

/-- Channel extraction `[:, 0, :, :]` collapsing an r=g=b mask image to a
single grayscale channel (line 158): the first `hw` pixels of the
channel-major data. -/
def grayChannel (im : Img) : List Int :=
  im.pix.take im.hw

/-- The three admissible split arguments (line 34). -/
inductive Split
  | train
  | test
  | test_anomaly_label_target
deriving DecidableEq

/-- Kinds of torchvision transforms that can appear in the `img_gt_transform`
pipeline; only `Resize` and `ToTensor` are accepted by the
original-resolution accessor (line 176). -/
inductive TKind
  | Resize
  | ToTensor
  | Other
deriving DecidableEq

/-- A reified `img_gt_transform`: the kinds of its constituent transforms
(for the `isinstance` check of line 176) together with its action on an
(image, mask) pair. -/
structure ImgGtTransform where
  kinds : List TKind
  action : Img × List Int → Img × List Int

/-- The persisted archive produced by `MvTec.download` (lines 160-166):
a mapping with train data/labels, test data/labels/maps/defect-category
ids, and the ordered defect-category name sequence. -/
structure DatasetDict where
  train_data : List Img
  train_labels : List Int
  test_data : List Img
  test_labels : List Int
  test_maps : List (List Int)
  test_anomaly_labels : List Int
  anomaly_label_strings : List String
deriving DecidableEq

/-- The in-memory state of a constructed `MvTec` view (fields set by
`__init__`, lines 34-62). -/
structure MvTecView where
  split : Split
  data : List Img
  targets : List Int
  gt : Option (List (List Int))
  anomaly_labels : Option (List Int)
  anomaly_label_strings : List String
  nominal_label : Int
  anom_label : Int
  target_transform : Option (Int → Int)
  all_transform : Option (Img × List Int × Int → Img × List Int × Int)
  img_gt_transform : Option ImgGtTransform
  transform : Option (Img → Img)
  normal_classes : List Nat
  orig_gtmaps : Option (List (List Rat))

/-- `t.repeat(10, ...)` on the leading dimension: the list tiled `n`
times (lines 59-62). -/
def repeatTimes (n : Nat) (xs : List α) : List α :=
  match n with
  | 0 => []
  | k + 1 => xs ++ repeatTimes k xs

/-- View construction, `MvTec.__init__` lines 51-66: select the split's
fields from the loaded archive, optionally replicate them tenfold
(`enlarge`), and check the label-polarity precondition.  The `-3`
sentinel assertion (line 66) only runs inside the `nominal_label != 0`
branch (line 64); an assertion failure is `none`. -/
def loadView (d : DatasetDict) (split : Split) (enlarge : Bool) (nominal anom : Int)
    (target_transform : Option (Int → Int))
    (all_transform : Option (Img × List Int × Int → Img × List Int × Int))
    (img_gt_transform : Option ImgGtTransform)
    (transform : Option (Img → Img))
    (normal_classes : List Nat) : Option MvTecView :=
  let data := match split with | Split.train => d.train_data | _ => d.test_data
  let targets := match split with | Split.train => d.train_labels | _ => d.test_labels
  let gt : Option (List (List Int)) :=
    match split with | Split.train => none | _ => some d.test_maps
  let als : Option (List Int) :=
    match split with | Split.train => none | _ => some d.test_anomaly_labels
  let orig : Option (List (List Rat)) := none
  let data := if enlarge then repeatTimes 10 data else data
  let targets := if enlarge then repeatTimes 10 targets else targets
  let gt := if enlarge then
      (match gt with | some g => some (repeatTimes 10 g) | none => none) else gt
  let als := if enlarge then
      (match als with | some a => some (repeatTimes 10 a) | none => none) else als
  let orig := if enlarge then
      (match orig with | some o => some (repeatTimes 10 o) | none => none) else orig
  if nominal ≠ 0 ∧ (nominal = -3 ∨ anom = -3) then none
  else some {
    split := split, data := data, targets := targets, gt := gt,
    anomaly_labels := als, anomaly_label_strings := d.anomaly_label_strings,
    nominal_label := nominal, anom_label := anom,
    target_transform := target_transform, all_transform := all_transform,
    img_gt_transform := img_gt_transform, transform := transform,
    normal_classes := normal_classes, orig_gtmaps := orig }

/-- Label determination of `__getitem__`, lines 70-75: look up the stored
target; for the `test_anomaly_label_target` split override it with the
transformed defect-category id (line 73, which crashes if the transform
is `None`); finally apply the target transform when present (line 75). -/
def labelAt (v : MvTecView) (index : Nat) : Option Int := do
  let label ← v.targets[index]?
  let label ←
    match v.split with
    | Split.test_anomaly_label_target => do
        let als ← v.anomaly_labels
        let al ← als[index]?
        let tt ← v.target_transform
        pure (tt al)
    | _ => pure label
  match v.target_transform with
  | some tt => pure (tt label)
  | none => pure label

/-- Line 81: the initial fill value for a synthesized train mask; the raw
(pre-swap) anomaly indicator is recovered as `label` when
`anom_label == 1` and as `1 - label` otherwise. -/
def gtinitlbl (anom_label label : Int) : Int :=
  if anom_label = 1 then label else 1 - label

/-- Line 82 pixel value: `(ones_like(img)[0] * gtinitlbl).mul(255).byte()`
on a `uint8` tensor, i.e. the fill value reduced modulo 256, times 255,
modulo 256. -/
def synthPixel (g : Int) : Int :=
  g % 256 * 255 % 256

/-- The mask synthesized at line 82: one channel of the image's spatial
size, constantly filled with `synthPixel` of the fill value. -/
def synthGt (img : Img) (anom_label label : Int) : List Int :=
  List.replicate img.hw (synthPixel (gtinitlbl anom_label label))

/-- Ground-truth determination of `__getitem__`, lines 77-84: in the train
split with no stored masks, assert `anom_label ∈ {0, 1}` (line 78) and
synthesize a constant mask; otherwise index the stored masks (which
crashes when they are `None`). -/
def gtAt (v : MvTecView) (index : Nat) : Option (List Int) :=
  match v.split, v.gt with
  | Split.train, none => do
      let img ← v.data[index]?
      let label ← labelAt v index
      if v.anom_label = 0 ∨ v.anom_label = 1 then
        pure (synthGt img v.anom_label label)
      else none
  | _, some gts => gts[index]?
  | _, none => none

/-- Masked assignment `t[t == a] = b` on a flat tensor. -/
def maskedAssign (gt : List Int) (a b : Int) : List Int :=
  gt.map (fun p => if p = a then b else p)

/-- Label-polarity re-encoding of the ground-truth map, lines 102-105:
when `nominal_label != 0`, pixels at 0 go to the sentinel `-3`, pixels at
1 go to `anom_label`, and sentinel pixels go to `nominal_label`. -/
def reencodeGt (nominal anom : Int) (gt : List Int) : List Int :=
  if nominal ≠ 0 then
    maskedAssign (maskedAssign (maskedAssign gt 0 (-3)) 1 anom) (-3) nominal
  else gt

/-- Steps 1-6 of `__getitem__` (lines 70-100): image/label/mask lookup,
then the joint transform, the PIL round-trip (identity on values), the
paired (image, mask) transform and the image-only transform. -/
def preOutput (v : MvTecView) (index : Nat) : Option (Img × Int × List Int) := do
  let img ← v.data[index]?
  let label ← labelAt v index
  let gt ← gtAt v index
  let (img, gt, label) :=
    match v.all_transform with
    | some t => t (img, gt, label)
    | none => (img, gt, label)
  let (img, gt) :=
    match v.img_gt_transform with
    | some t => t.action (img, gt)
    | none => (img, gt)
  let img :=
    match v.transform with
    | some t => t img
    | none => img
  pure (img, label, gt)

/-- `MvTec.__getitem__` (lines 69-107): the pre-output of steps 1-6
followed by the label-polarity re-encoding of the mask. -/
def getitem (v : MvTecView) (index : Nat) : Option (Img × Int × List Int) :=
  (preOutput v index).map
    (fun r => (r.1, r.2.1, reencodeGt v.nominal_label v.anom_label r.2.2))

/-- The normal defect-category sentinel name (line 26). -/
def normal_anomaly_label : String := "good"

/-- The id fixed for the normal defect category (line 27). -/
def normal_anomaly_label_idx : Int := 0

/-- `MvTec.convert_img_name_to_mask_name` (lines 246-248). -/
def convert_img_name_to_mask_name (img_name : String) : String :=
  img_name.replace ".png" "_mask.png"

/-- One class directory of the extracted raw tree: the `test` and `train`
subdirectories as listings of (defect-category directory, listing of
(file name, decoded image)), plus the `ground_truth` directory as a
lookup from (defect-category directory, mask file name) to the decoded
mask image.  Decoding and resizing (`img_to_torch`) is abstracted into
the stored images. -/
structure RawClass where
  test : List (String × List (String × Img))
  train : List (String × List (String × Img))
  groundTruth : String → String → Img

/-- The extracted raw tree: one `RawClass` per entry of the fixed class
name tuple, in that order. -/
structure RawTree where
  classes : List RawClass

/-- Insertion step of a stable insertion sort on the name component,
modelling `sorted(os.listdir(...))`. -/
def insertStr (p : String × α) : List (String × α) → List (String × α)
  | [] => [p]
  | q :: qs => if p.1 < q.1 then p :: q :: qs else q :: insertStr p qs

/-- Stable sort of a directory listing by name, modelling
`sorted(os.listdir(...))` (lines 126-127 and 145-146). -/
def sortStrPairs (l : List (String × α)) : List (String × α) :=
  l.foldr insertStr []

/-- Mutable builder state during `MvTec.download` (lines 119-121):
the accumulated parallel sequences and the insertion-ordered
defect-category id map (a Python dict preserving insertion order). -/
structure BuildState where
  train_data : List Img
  train_labels : List Int
  test_data : List Img
  test_labels : List Int
  test_maps : List Img
  test_anomaly_labels : List Int
  albl_idmap : List (String × Int)

/-- Dict lookup `albl_idmap[anomaly_label]` as an association-list
search. -/
def lookupId (m : List (String × Int)) (k : String) : Option Int :=
  (m.find? (fun p => p.1 == k)).map (fun p => p.2)

/-- Processing of one test image file (lines 128-143): load the sample,
load the mask from the parallel ground-truth directory for non-normal
categories (all-zero mask for the normal one), append sample/label/mask,
register a first-seen defect-category id, and append that id. -/
def processTestFile (testLbl : Nat) (c : RawClass) (dirName : String)
    (st : BuildState) (file : String × Img) : BuildState :=
  let sample := file.2
  let mask :=
    if dirName ≠ normal_anomaly_label then
      c.groundTruth dirName (convert_img_name_to_mask_name file.1)
    else zerosLike sample
  let idmap :=
    if lookupId st.albl_idmap dirName = none then
      st.albl_idmap ++ [(dirName, (st.albl_idmap.length : Int))]
    else st.albl_idmap
  { train_data := st.train_data, train_labels := st.train_labels,
    test_data := st.test_data ++ [sample],
    test_labels := st.test_labels ++ [(testLbl : Int)],
    test_maps := st.test_maps ++ [mask],
    test_anomaly_labels := st.test_anomaly_labels ++ [(lookupId idmap dirName).getD 0],
    albl_idmap := idmap }

/-- Processing of one test defect-category directory (lines 126-143):
its files in lexicographic order. -/
def processDir (testLbl : Nat) (c : RawClass) (st : BuildState)
    (d : String × List (String × Img)) : BuildState :=
  (sortStrPairs d.2).foldl (processTestFile testLbl c d.1) st

/-- Processing of one train image file (lines 146-151). -/
def processTrainFile (lblIdx : Nat) (st : BuildState) (f : String × Img) : BuildState :=
  { st with train_data := st.train_data ++ [f.2],
            train_labels := st.train_labels ++ [(lblIdx : Int)] }

/-- Processing of one class (lines 123-151): the test directories in
lexicographic order, then the train directories.  `lblIdx` is the
enumeration index (used for train labels, line 151); `testLbl` is the
value appended as test label (line 139: `cls` in single-class mode,
otherwise the enumeration index). -/
def processClass (lblIdx testLbl : Nat) (st : BuildState) (c : RawClass) : BuildState :=
  let st1 := (sortStrPairs c.test).foldl (processDir testLbl c) st
  (sortStrPairs c.train).foldl
    (fun st d => (sortStrPairs d.2).foldl (processTrainFile lblIdx) st) st1

/-- The enumerated class loop of line 123. -/
def processClasses (lblIdx : Nat) (st : BuildState) : List RawClass → BuildState
  | [] => st
  | c :: cs => processClasses (lblIdx + 1) (processClass lblIdx lblIdx st c) cs

/-- The initial builder state: empty sequences and the id map pre-seeded
with the normal sentinel at id 0 (line 121). -/
def initState : BuildState :=
  ⟨[], [], [], [], [], [], [(normal_anomaly_label, normal_anomaly_label_idx)]⟩

/-- Insertion step of a stable insertion sort by id, modelling
`sorted(albl_idmap.items(), key=lambda kv: kv[1])` (line 153). -/
def insertByVal (p : String × Int) : List (String × Int) → List (String × Int)
  | [] => [p]
  | q :: qs => if p.2 < q.2 then p :: q :: qs else q :: insertByVal p qs

/-- Stable sort of the id map by id (line 153). -/
def sortByVal (l : List (String × Int)) : List (String × Int) :=
  l.foldr insertByVal []

/-- Final assembly of the archive (lines 153-166): stack the collected
sequences, collapse the masks to grayscale, and order the
defect-category names by their ids. -/
def finalize (st : BuildState) : DatasetDict :=
  { train_data := st.train_data, train_labels := st.train_labels,
    test_data := st.test_data, test_labels := st.test_labels,
    test_maps := st.test_maps.map grayChannel,
    test_anomaly_labels := st.test_anomaly_labels,
    anomaly_label_strings := (sortByVal st.albl_idmap).map (fun p => p.1) }

/-- `MvTec.download` in full-tree mode (`cls is None`): build the archive
from every class of the raw tree. -/
def download (t : RawTree) : DatasetDict :=
  finalize (processClasses 0 initState t.classes)

/-- `MvTec.download` in single-class original-resolution mode
(`cls is not None`): only `labels[cls]` is processed, with enumeration
index 0 (line 123) and `cls` as the appended test label (line 139). -/
def downloadOrig (t : RawTree) (cls : Nat) : Option DatasetDict := do
  let c ← t.classes[cls]?
  pure (finalize (processClass 0 cls initState c))

/-- The `isinstance` precondition of line 176: every transform in the
`img_gt_transform` pipeline is a `Resize` or a `ToTensor`. -/
def allowedTransformKinds (ts : List TKind) : Bool :=
  ts.all (fun t => t == TKind.Resize || t == TKind.ToTensor)

/-- `MvTec.get_original_gtmaps_normal_class` (lines 172-181): assert the
split is not train, that exactly one normal class is configured, that no
joint transform is configured, and that the paired transform pipeline
only resizes/converts; then lazily build and cache the single-class
original-resolution ground-truth maps divided by 255.  The result is the
returned tensor together with the (possibly updated) view; any failed
assertion is `none`. -/
def get_original_gtmaps_normal_class (t : RawTree) (v : MvTecView) :
    Option (List (List Rat) × MvTecView) := do
  if v.split = Split.train then none
  else if v.normal_classes.length ≠ 1 then none
  else if v.all_transform.isSome then none
  else do
    let igt ← v.img_gt_transform
    if ¬ allowedTransformKinds igt.kinds then none
    else
      match v.orig_gtmaps with
      | some m => some (m, v)
      | none => do
          let cls ← v.normal_classes[0]?
          let arch ← downloadOrig t cls
          let m := arch.test_maps.map (List.map (fun p => ((p : Int) : Rat) / 255))
          some (m, { v with orig_gtmaps := some m })

/-- Pixel-wise description of the three-step swap of lines 102-105: pixels
at 0 and at the sentinel -3 go to the nominal-label value, pixels at 1 go
to the anomalous-label value, all other pixels are unchanged. -/
def reencodePixel (nominal anom : Int) (p : Int) : Int :=
  if p = 0 then nominal else if p = 1 then anom else if p = -3 then nominal else p

theorem reencodeGt_eq_map (nominal anom : Int) (h : anom ≠ -3) (gt : List Int) :
    reencodeGt nominal anom gt =
      if nominal = 0 then gt else gt.map (reencodePixel nominal anom) := by
  by_cases h0 : nominal = 0
  · simp [reencodeGt, h0]
  · rw [reencodeGt, if_pos h0, if_neg h0, maskedAssign, maskedAssign, maskedAssign,
      List.map_map, List.map_map]
    refine List.map_congr_left (fun a _ => ?_)
    simp only [Function.comp_apply, reencodePixel]
    split_ifs <;> first | omega | exact False.elim ‹False›

theorem replicate_ne_of_ne {a b : Int} {n : Nat} (hn : 0 < n) (hab : a ≠ b) :
    List.replicate n a ≠ List.replicate n b := by
  cases n with
  | zero => exact absurd hn (by omega)
  | succ k =>
      intro h
      rw [List.replicate_succ, List.replicate_succ] at h
      exact hab (List.cons_eq_cons.mp h).1

/-- C3: for every retrieval, the returned mask is the pre-output mask
re-encoded by the three-step swap exactly when the configured
nominal-label value is not 0 (and left unchanged otherwise); the swap
sends pixels at 0 to the nominal value, pixels at 1 to the anomalous
value, sentinel pixels to the nominal value, and leaves every other
pixel unchanged. -/
theorem getitem_reencode_three_step (v : MvTecView) (index : Nat)
    (img : Img) (label : Int) (gt : List Int)
    (hpre : preOutput v index = some (img, label, gt))
    (hanom : v.anom_label ≠ -3) :
    getitem v index = some (img, label,
      if v.nominal_label = 0 then gt
      else gt.map (reencodePixel v.nominal_label v.anom_label)) := by
  rw [getitem, hpre, Option.map_some']
  rw [reencodeGt_eq_map v.nominal_label v.anom_label hanom]

/-- C4 counterexample: starting from the {0,255}-coded mask `[0, 255]`,
re-encoding with (nominal=0, anomalous=1) and then with
(nominal=1, anomalous=0) yields `[1, 255]`, not the 0↔255 swap
`[255, 0]` claimed. -/
theorem reencode_swap_composition_cex :
    reencodeGt 1 0 (reencodeGt 0 1 [0, 255]) = [1, 255] ∧
      reencodeGt 1 0 (reencodeGt 0 1 [0, 255]) ≠ [255, 0] := by
  constructor <;> decide

/-- C4 (amended): for every mask with pixel values in {0, 255},
re-encoding with (nominal=0, anomalous=1) is the identity (the guard
`nominal_label != 0` skips the swap) and subsequent re-encoding with
(nominal=1, anomalous=0) maps every 0 to 1 and leaves every 255
unchanged, rather than swapping 0 and 255. -/
theorem reencode_swap_composition_amended (gt : List Int)
    (h : ∀ p ∈ gt, p = 0 ∨ p = 255) :
    reencodeGt 1 0 (reencodeGt 0 1 gt) = gt.map (fun p => if p = 0 then 1 else p) := by
  have h1 : reencodeGt 0 1 gt = gt := by simp [reencodeGt]
  rw [h1, reencodeGt_eq_map 1 0 (by decide), if_neg (by decide)]
  refine List.map_congr_left (fun a ha => ?_)
  rcases h a ha with rfl | rfl <;> decide

theorem reencode_swap_composition_amended_witness :
    reencodeGt 1 0 (reencodeGt 0 1 [0, 255]) =
      [0, 255].map (fun p => if p = 0 then 1 else p) :=
  reencode_swap_composition_amended [0, 255] (by decide)

def w3img : Img := ⟨1, [9, 9, 9]⟩

def w3view : MvTecView := {
  split := Split.test, data := [w3img], targets := [0],
  gt := some [[0, 1, 255]], anomaly_labels := some [0],
  anomaly_label_strings := ["good"],
  nominal_label := 1, anom_label := 0,
  target_transform := none, all_transform := none,
  img_gt_transform := none, transform := none,
  normal_classes := [], orig_gtmaps := none }

theorem getitem_reencode_three_step_witness :
    getitem w3view 0 = some (w3img, 0, [1, 0, 255]) := by
  rw [getitem_reencode_three_step w3view 0 w3img 0 [0, 1, 255] rfl (by decide)]
  decide

/-- Modelled from the spec: the externally supplied target transform of
the surrounding pipeline, which encodes the raw anomaly status of a
sample (raw label 1 = anomalous, raw label 0 = nominal) into the
configured label polarity.  The transform itself is constructed by
callers outside this source file. -/
def polarityTransform (nominal anom : Int) : Int → Int :=
  fun raw => if raw = 1 then anom else nominal

/-- C1: in a train-split retrieval on a view with no stored masks, with
the external polarity-encoding label transform configured, the
synthesized ground-truth mask is filled entirely with 255 exactly when
the raw (untransformed) label is 1 (anomalous), and filled entirely with
0 when the raw label is 0 (nominal). -/
theorem train_synth_mask_iff_anomalous
    (v : MvTecView) (index : Nat) (raw : Int) (img : Img)
    (hsplit : v.split = Split.train) (hgt : v.gt = none)
    (htt : v.target_transform = some (polarityTransform v.nominal_label v.anom_label))
    (hdata : v.data[index]? = some img) (htar : v.targets[index]? = some raw)
    (hraw : raw = 0 ∨ raw = 1)
    (hanom : v.anom_label = 0 ∨ v.anom_label = 1)
    (hnom : v.nominal_label = 1 - v.anom_label)
    (hhw : 0 < img.hw) :
    (gtAt v index = some (List.replicate img.hw 255) ↔ raw = 1) ∧
    (raw = 0 → gtAt v index = some (List.replicate img.hw 0)) := by
  have hlab : labelAt v index =
      some (polarityTransform v.nominal_label v.anom_label raw) := by
    simp [labelAt, htar, hsplit, htt]
  have hstep : gtAt v index = (do
      let img ← v.data[index]?
      let label ← labelAt v index
      if v.anom_label = 0 ∨ v.anom_label = 1 then
        pure (synthGt img v.anom_label label)
      else none) := by
    unfold gtAt
    rw [hsplit, hgt]
  have hg : gtAt v index =
      some (synthGt img v.anom_label (polarityTransform v.nominal_label v.anom_label raw)) := by
    rw [hstep, hdata, hlab]
    simp [if_pos hanom]
  have hval : synthPixel (gtinitlbl v.anom_label
      (polarityTransform v.nominal_label v.anom_label raw)) =
      if raw = 1 then 255 else 0 := by
    rcases hanom with ha | ha <;> rcases hraw with hr | hr <;>
      norm_num [synthPixel, gtinitlbl, polarityTransform, ha, hr, hnom]
  have hsg : synthGt img v.anom_label (polarityTransform v.nominal_label v.anom_label raw)
      = List.replicate img.hw (if raw = 1 then 255 else 0) := by
    rw [synthGt, hval]
  constructor
  · rw [hg, hsg]
    rcases hraw with hr | hr
    · simp only [hr, if_neg (by decide : ¬ ((0 : Int) = 1)), Option.some.injEq]
      constructor
      · intro heq
        exact absurd heq (replicate_ne_of_ne hhw (by decide))
      · intro heq
        exact absurd heq (by decide)
    · simp [hr]
  · intro hr0
    rw [hg, hsg, hr0]
    simp

def w1img : Img := ⟨2, [5, 5, 5, 5, 5, 5]⟩

def w1view : MvTecView := {
  split := Split.train, data := [w1img], targets := [1],
  gt := none, anomaly_labels := none, anomaly_label_strings := ["good"],
  nominal_label := 0, anom_label := 1,
  target_transform := some (polarityTransform 0 1), all_transform := none,
  img_gt_transform := none, transform := none,
  normal_classes := [], orig_gtmaps := none }

theorem train_synth_mask_iff_anomalous_witness :
    (gtAt w1view 0 = some (List.replicate 2 255) ↔ (1 : Int) = 1) ∧
    ((1 : Int) = 0 → gtAt w1view 0 = some (List.replicate 2 0)) :=
  train_synth_mask_iff_anomalous w1view 0 1 w1img rfl rfl rfl rfl rfl
    (Or.inr rfl) (Or.inr rfl) (by decide) (by decide)

def c2img : Img := ⟨1, [0, 0, 0]⟩

def c2view : MvTecView := {
  split := Split.test_anomaly_label_target, data := [c2img], targets := [0],
  gt := some [[0]], anomaly_labels := some [5], anomaly_label_strings := ["good"],
  nominal_label := 0, anom_label := 1,
  target_transform := some (fun x => x + 1), all_transform := none,
  img_gt_transform := none, transform := none,
  normal_classes := [], orig_gtmaps := none }

/-- C2 counterexample: on a defect-category-as-label view whose stored
defect-category id at index 0 is 5 and whose label transform is `+ 1`,
the claim predicts the returned label `5 + 1 = 6`; the retrieval instead
returns 7, because the transform is applied at the override (line 73) and
then again by the general label-transform step (line 75). -/
theorem defect_label_single_transform_cex :
    (getitem c2view 0).map (fun r => r.2.1) = some 7 ∧
      (getitem c2view 0).map (fun r => r.2.1) ≠ some 6 := by
  constructor <;> decide

/-- C2 (amended): for every retrieval on a defect-category-as-label view,
the returned label is the externally supplied label transform applied
TWICE to the defect-category id stored at that index — once by the
override of line 73 and once more by the general label-transform step of
line 75 (stated for views without a joint transform, which could rewrite
the label afterwards). -/
theorem defect_label_double_transform
    (v : MvTecView) (index : Nat) (f : Int → Int) (als : List Int) (al : Int)
    (r : Img × Int × List Int)
    (hsplit : v.split = Split.test_anomaly_label_target)
    (htt : v.target_transform = some f)
    (hals : v.anomaly_labels = some als) (hal : als[index]? = some al)
    (hat : v.all_transform = none)
    (h : getitem v index = some r) : r.2.1 = f (f al) := by
  rw [getitem] at h
  cases hp : preOutput v index with
  | none => rw [hp] at h; exact absurd h (by simp)
  | some r0 =>
      rw [hp, Option.map_some'] at h
      have hr : r.2.1 = r0.2.1 := by
        have h2 := Option.some.inj h
        rw [← h2]
      rw [hr]
      rw [preOutput] at hp
      cases hd : v.data[index]? with
      | none => rw [hd] at hp; exact absurd hp (by simp)
      | some img =>
          rw [hd] at hp
          have hlab : labelAt v index = some (f (f al)) := by
            simp [labelAt, hsplit, hals, hal, htt]
            cases ht : v.targets[index]? with
            | none =>
                exfalso
                rw [labelAt] at hp
                rw [ht] at hp
                simp at hp
            | some l0 => simp [ht]
          rw [hlab] at hp
          cases hg : gtAt v index with
          | none => rw [hg] at hp; exact absurd hp (by simp)
          | some gt0 =>
              rw [hg] at hp
              simp only [hat, Option.some_bind] at hp
              cases higt : v.img_gt_transform with
              | none =>
                  rw [higt] at hp
                  cases htr : v.transform with
                  | none =>
                      rw [htr] at hp
                      simp at hp
                      rw [← hp]
                  | some tr =>
                      rw [htr] at hp
                      simp at hp
                      rw [← hp]
              | some igt =>
                  rw [higt] at hp
                  cases htr : v.transform with
                  | none =>
                      rw [htr] at hp
                      simp at hp
                      rw [← hp]
                  | some tr =>
                      rw [htr] at hp
                      simp at hp
                      rw [← hp]

theorem defect_label_double_transform_witness :
    (((⟨1, [0, 0, 0]⟩ : Img), (7 : Int), ([0] : List Int)) : Img × Int × List Int).2.1
      = (fun x : Int => x + 1) ((fun x : Int => x + 1) 5) :=
  defect_label_double_transform c2view 0 (fun x => x + 1) [5] 5
    ((⟨1, [0, 0, 0]⟩ : Img), (7 : Int), ([0] : List Int)) rfl rfl rfl rfl rfl rfl

def c8dict : DatasetDict := ⟨[], [], [], [], [], [], []⟩

/-- C8 counterexample: with nominal-label value 0 and anomalous-label
value -3 (the sentinel), view construction succeeds, contradicting the
claim that any label value equal to -3 makes construction fail: the
assertion of line 66 only runs inside the `nominal_label != 0` branch of
line 64. -/
theorem sentinel_assert_skipped_cex :
    (loadView c8dict Split.train false 0 (-3) none none none none []).isSome = true := by
  rfl

/-- C8 (amended): view construction fails with the assertion error
precisely when the configured nominal-label value is nonzero and one of
the two configured label values equals the sentinel -3; when the
nominal-label value is 0 the check is skipped and even an
anomalous-label value of -3 is accepted. -/
theorem sentinel_assert_iff (d : DatasetDict) (split : Split) (enlarge : Bool)
    (nominal anom : Int) (tt : Option (Int → Int))
    (atf : Option (Img × List Int × Int → Img × List Int × Int))
    (igt : Option ImgGtTransform) (tr : Option (Img → Img)) (ncs : List Nat) :
    loadView d split enlarge nominal anom tt atf igt tr ncs = none ↔
      (nominal ≠ 0 ∧ (nominal = -3 ∨ anom = -3)) := by
  by_cases hc : nominal ≠ 0 ∧ (nominal = -3 ∨ anom = -3)
  · simp only [loadView, if_pos hc]
    exact iff_of_true trivial hc
  · simp only [loadView, if_neg hc]
    exact iff_of_false (by simp) hc

theorem sentinel_assert_iff_witness :
    loadView c8dict Split.train false (-3) 1 none none none none [] = none :=
  (sentinel_assert_iff c8dict Split.train false (-3) 1 none none none none []).mpr
    ⟨by decide, Or.inl rfl⟩

theorem repeatTimes_length (n : Nat) (xs : List α) :
    (repeatTimes n xs).length = n * xs.length := by
  induction n with
  | zero => simp [repeatTimes]
  | succ k ih =>
      show (xs ++ repeatTimes k xs).length = (k + 1) * xs.length
      rw [List.length_append, ih]
      ring

theorem repeatTimes_getElem? (n : Nat) (xs : List α) (i : Nat) (h : i < n * xs.length) :
    (repeatTimes n xs)[i]? = xs[i % xs.length]? := by
  induction n generalizing i with
  | zero => exact absurd h (by simp)
  | succ k ih =>
      show (xs ++ repeatTimes k xs)[i]? = _
      by_cases hi : i < xs.length
      · rw [List.getElem?_append_left hi, Nat.mod_eq_of_lt hi]
      · push_neg at hi
        have h2 : i < k * xs.length + xs.length := by
          rw [Nat.succ_mul] at h
          exact h
        rw [List.getElem?_append_right hi, ih (i - xs.length) (by omega),
          Nat.mod_eq_sub_mod hi]

theorem repeatTimes_spec (xs : List α) :
    (repeatTimes 10 xs).length = 10 * xs.length ∧
    ∀ i < (repeatTimes 10 xs).length, (repeatTimes 10 xs)[i]? = xs[i % xs.length]? := by
  refine ⟨repeatTimes_length 10 xs, fun i hi => ?_⟩
  exact repeatTimes_getElem? 10 xs i (by rwa [repeatTimes_length 10 xs] at hi)

/-- C5: when the tenfold-replication flag is enabled, every parallel
sequence of the constructed view (images, labels, and — when present —
masks and defect-category ids) has 10 times the length of the
corresponding sequence of the unreplicated view, and its element at
every index i equals the unreplicated element at index i mod the
original length. -/
theorem enlarge_tenfold_fields
    (d : DatasetDict) (split : Split) (nominal anom : Int)
    (tt : Option (Int → Int))
    (atf : Option (Img × List Int × Int → Img × List Int × Int))
    (igt : Option ImgGtTransform) (tr : Option (Img → Img)) (ncs : List Nat)
    (v v0 : MvTecView)
    (hv : loadView d split true nominal anom tt atf igt tr ncs = some v)
    (hv0 : loadView d split false nominal anom tt atf igt tr ncs = some v0) :
    (v.data.length = 10 * v0.data.length ∧
      ∀ i < v.data.length, v.data[i]? = v0.data[i % v0.data.length]?) ∧
    (v.targets.length = 10 * v0.targets.length ∧
      ∀ i < v.targets.length, v.targets[i]? = v0.targets[i % v0.targets.length]?) ∧
    (∀ g0, v0.gt = some g0 → ∃ g, v.gt = some g ∧ g.length = 10 * g0.length ∧
      ∀ i < g.length, g[i]? = g0[i % g0.length]?) ∧
    (∀ a0, v0.anomaly_labels = some a0 → ∃ a, v.anomaly_labels = some a ∧
      a.length = 10 * a0.length ∧ ∀ i < a.length, a[i]? = a0[i % a0.length]?) := by
  by_cases hc : nominal ≠ 0 ∧ (nominal = -3 ∨ anom = -3)
  · simp only [loadView, if_pos hc] at hv
    exact Option.noConfusion hv
  · cases split with
    | train =>
      simp only [loadView, if_neg hc] at hv hv0
      obtain rfl := Option.some.inj hv
      obtain rfl := Option.some.inj hv0
      refine ⟨⟨(repeatTimes_spec _).1, (repeatTimes_spec _).2⟩,
        ⟨(repeatTimes_spec _).1, (repeatTimes_spec _).2⟩, ?_, ?_⟩
      · intro g0 hg0
        exact absurd hg0 (by simp)
      · intro a0 ha0
        exact absurd ha0 (by simp)
    | test =>
      simp only [loadView, if_neg hc] at hv hv0
      obtain rfl := Option.some.inj hv
      obtain rfl := Option.some.inj hv0
      refine ⟨⟨(repeatTimes_spec _).1, (repeatTimes_spec _).2⟩,
        ⟨(repeatTimes_spec _).1, (repeatTimes_spec _).2⟩, ?_, ?_⟩
      · intro g0 hg0
        obtain rfl := Option.some.inj hg0
        exact ⟨repeatTimes 10 d.test_maps, rfl, (repeatTimes_spec _).1, (repeatTimes_spec _).2⟩
      · intro a0 ha0
        obtain rfl := Option.some.inj ha0
        exact ⟨repeatTimes 10 d.test_anomaly_labels, rfl,
          (repeatTimes_spec _).1, (repeatTimes_spec _).2⟩
    | test_anomaly_label_target =>
      simp only [loadView, if_neg hc] at hv hv0
      obtain rfl := Option.some.inj hv
      obtain rfl := Option.some.inj hv0
      refine ⟨⟨(repeatTimes_spec _).1, (repeatTimes_spec _).2⟩,
        ⟨(repeatTimes_spec _).1, (repeatTimes_spec _).2⟩, ?_, ?_⟩
      · intro g0 hg0
        obtain rfl := Option.some.inj hg0
        exact ⟨repeatTimes 10 d.test_maps, rfl, (repeatTimes_spec _).1, (repeatTimes_spec _).2⟩
      · intro a0 ha0
        obtain rfl := Option.some.inj ha0
        exact ⟨repeatTimes 10 d.test_anomaly_labels, rfl,
          (repeatTimes_spec _).1, (repeatTimes_spec _).2⟩

def w5img : Img := ⟨1, [1, 1, 1]⟩

def w5dict : DatasetDict := ⟨[], [], [w5img], [3], [[7]], [1], ["good"]⟩

def w5view : MvTecView := {
  split := Split.test, data := repeatTimes 10 [w5img], targets := repeatTimes 10 [3],
  gt := some (repeatTimes 10 [[7]]), anomaly_labels := some (repeatTimes 10 [1]),
  anomaly_label_strings := ["good"], nominal_label := 0, anom_label := 1,
  target_transform := none, all_transform := none, img_gt_transform := none,
  transform := none, normal_classes := [], orig_gtmaps := none }

def w5view0 : MvTecView := {
  split := Split.test, data := [w5img], targets := [3],
  gt := some [[7]], anomaly_labels := some [1],
  anomaly_label_strings := ["good"], nominal_label := 0, anom_label := 1,
  target_transform := none, all_transform := none, img_gt_transform := none,
  transform := none, normal_classes := [], orig_gtmaps := none }

theorem enlarge_tenfold_fields_witness :
    w5view.data.length = 10 * w5view0.data.length ∧
      w5view.targets[7]? = w5view0.targets[7 % w5view0.targets.length]? :=
  ⟨(enlarge_tenfold_fields w5dict Split.test 0 1 none none none none []
      w5view w5view0 rfl rfl).1.1,
   (enlarge_tenfold_fields w5dict Split.test 0 1 none none none none []
      w5view w5view0 rfl rfl).2.1.2 7 (by decide)⟩

/-- C9: requesting the original-resolution ground-truth accessor on a
train-split view fails the asserted precondition of line 173; the
failure precedes any state mutation, so no result and no updated view
are produced. -/
theorem orig_gtmaps_train_fails (t : RawTree) (v : MvTecView)
    (hsplit : v.split = Split.train) :
    get_original_gtmaps_normal_class t v = none := by
  simp [get_original_gtmaps_normal_class, hsplit]

def w9view : MvTecView := {
  split := Split.train, data := [], targets := [], gt := none,
  anomaly_labels := none, anomaly_label_strings := [],
  nominal_label := 0, anom_label := 1,
  target_transform := none, all_transform := none, img_gt_transform := none,
  transform := none, normal_classes := [0], orig_gtmaps := none }

def w9tree : RawTree := ⟨[]⟩

theorem orig_gtmaps_train_fails_witness :
    get_original_gtmaps_normal_class w9tree w9view = none :=
  orig_gtmaps_train_fails w9tree w9view rfl

/-- C10: for a test-split view constructed with the tenfold-replication
flag, `orig_gtmaps` is still uninitialized (`None`, line 39) when
replication runs (line 62), so a successful call of the
original-resolution accessor returns maps of the unreplicated per-class
test count — not 10 times that count. -/
theorem orig_gtmaps_unreplicated_length
    (t : RawTree) (d : DatasetDict) (nominal anom : Int)
    (tt : Option (Int → Int))
    (atf : Option (Img × List Int × Int → Img × List Int × Int))
    (igt : Option ImgGtTransform) (tr : Option (Img → Img)) (cls : Nat)
    (v v2 : MvTecView) (m : List (List Rat)) (arch : DatasetDict)
    (hv : loadView d Split.test true nominal anom tt atf igt tr [cls] = some v)
    (hacc : get_original_gtmaps_normal_class t v = some (m, v2))
    (harch : downloadOrig t cls = some arch) :
    v.orig_gtmaps = none ∧ m.length = arch.test_maps.length ∧
      (0 < arch.test_maps.length → m.length ≠ 10 * arch.test_maps.length) := by
  by_cases hc : nominal ≠ 0 ∧ (nominal = -3 ∨ anom = -3)
  · simp only [loadView, if_pos hc] at hv
    exact Option.noConfusion hv
  · simp only [loadView, if_neg hc] at hv
    obtain rfl := Option.some.inj hv
    cases atf with
    | some a => simp [get_original_gtmaps_normal_class] at hacc
    | none =>
        cases igt with
        | none => simp [get_original_gtmaps_normal_class] at hacc
        | some g =>
            by_cases hk : allowedTransformKinds g.kinds
            · simp only [get_original_gtmaps_normal_class, hk] at hacc
              simp at hacc
              rw [harch] at hacc
              simp at hacc
              obtain ⟨hm, hmap, hview⟩ := hacc
              refine ⟨rfl, ?_, ?_⟩
              · rw [← hmap, List.length_map]
              · intro hpos
                rw [← hmap, List.length_map]
                omega
            · simp [get_original_gtmaps_normal_class, hk] at hacc

def w10img : Img := ⟨1, [0, 0, 0]⟩

def w10class : RawClass := {
  test := [("good", [("000.png", w10img)])],
  train := [],
  groundTruth := fun _ _ => w10img }

def w10tree : RawTree := ⟨[w10class]⟩

def w10arch : DatasetDict := ⟨[], [], [w10img], [0], [[0]], [0], ["good"]⟩

def w10igt : ImgGtTransform := ⟨[TKind.Resize], fun p => p⟩

def w10view : MvTecView := {
  split := Split.test, data := repeatTimes 10 [w10img], targets := repeatTimes 10 [0],
  gt := some (repeatTimes 10 [[0]]), anomaly_labels := some (repeatTimes 10 [0]),
  anomaly_label_strings := ["good"], nominal_label := 0, anom_label := 1,
  target_transform := none, all_transform := none, img_gt_transform := some w10igt,
  transform := none, normal_classes := [0], orig_gtmaps := none }

def w10m : List (List Rat) :=
  w10arch.test_maps.map (List.map (fun p => ((p : Int) : Rat) / 255))

def w10view2 : MvTecView := { w10view with orig_gtmaps := some w10m }

theorem orig_gtmaps_unreplicated_length_witness :
    w10view.orig_gtmaps = none ∧ w10m.length = w10arch.test_maps.length ∧
      (0 < w10arch.test_maps.length → w10m.length ≠ 10 * w10arch.test_maps.length) :=
  orig_gtmaps_unreplicated_length w10tree w10arch 0 1 none none (some w10igt) none 0
    w10view w10view2 w10m w10arch rfl rfl rfl

/-- The integer sequence 0, 1, ..., n-1: the ids held by the builder's
defect-category id map after n insertions. -/
def intRange (n : Nat) : List Int :=
  (List.range n).map (fun k : Nat => (k : Int))

theorem intRange_succ (n : Nat) : intRange (n + 1) = intRange n ++ [(n : Int)] := by
  rw [intRange, List.range_succ, List.map_append, intRange]
  rfl

theorem mem_intRange {x : Int} {n : Nat} (h : x ∈ intRange n) : 0 ≤ x ∧ x.toNat < n := by
  rw [intRange, List.mem_map] at h
  obtain ⟨k, hk, rfl⟩ := h
  rw [List.mem_range] at hk
  constructor
  · exact Int.ofNat_nonneg k
  · simpa using hk

theorem lookupId_eq_none_iff (m : List (String × Int)) (k : String) :
    lookupId m k = none ↔ k ∉ m.map (fun p => p.1) := by
  rw [lookupId, Option.map_eq_none', List.find?_eq_none]
  constructor
  · intro h hk
    rw [List.mem_map] at hk
    obtain ⟨p, hp, hpk⟩ := hk
    exact h p hp (by simpa using hpk)
  · intro h p hp hpk
    exact h (List.mem_map.mpr ⟨p, hp, by simpa using hpk⟩)

theorem lookupId_mem_of_some {m : List (String × Int)} {k : String} {i : Int}
    (h : lookupId m k = some i) : i ∈ m.map (fun p => p.2) := by
  rw [lookupId, Option.map_eq_some'] at h
  obtain ⟨p, hp, rfl⟩ := h
  exact List.mem_map.mpr ⟨p, List.mem_of_find?_eq_some hp, rfl⟩

theorem lookupId_append_self (m : List (String × Int)) (k : String) (i : Int)
    (h : lookupId m k = none) : lookupId (m ++ [(k, i)]) k = some i := by
  induction m with
  | nil => simp [lookupId, List.find?]
  | cons q qs ih =>
      rw [lookupId, Option.map_eq_none', List.find?_eq_none] at h
      have hq : ¬ (q.1 == k) = true := h q (by simp)
      have hqs : lookupId qs k = none := by
        rw [lookupId, Option.map_eq_none', List.find?_eq_none]
        exact fun p hp => h p (by simp [hp])
      have := ih hqs
      rw [lookupId, List.cons_append, List.find?] at *
      simp only [hq] at *
      simpa [lookupId] using this

/-- The builder-state invariant maintained by `MvTec.download`: the
train-side sequences share one length, the four test-side sequences
share one length, the id map holds exactly the ids 0..n-1 in order, and
every recorded defect-category id is a valid index into the id map. -/
def BuildInv (st : BuildState) : Prop :=
  st.train_data.length = st.train_labels.length ∧
  st.test_data.length = st.test_labels.length ∧
  st.test_labels.length = st.test_maps.length ∧
  st.test_maps.length = st.test_anomaly_labels.length ∧
  st.albl_idmap.map (fun p => p.2) = intRange st.albl_idmap.length ∧
  ∀ id ∈ st.test_anomaly_labels, 0 ≤ id ∧ id.toNat < st.albl_idmap.length

theorem foldl_preserve {α β : Type} {P : β → Prop} (f : β → α → β)
    (hf : ∀ b a, P b → P (f b a)) (l : List α) (b : β) (hb : P b) :
    P (l.foldl f b) := by
  induction l generalizing b with
  | nil => exact hb
  | cons x xs ih => exact ih (f b x) (hf b x hb)

theorem buildInv_processTestFile (testLbl : Nat) (c : RawClass) (dirName : String)
    (st : BuildState) (f : String × Img) (h : BuildInv st) :
    BuildInv (processTestFile testLbl c dirName st f) := by
  obtain ⟨h1, h2, h3, h4, h5, h6⟩ := h
  unfold processTestFile
  by_cases hl : lookupId st.albl_idmap dirName = none
  · rw [if_pos hl]
    refine ⟨by simpa using h1, by simp [h2], by simp [h3], by simp [h4], ?_, ?_⟩
    · rw [List.map_append, h5, List.length_append]
      simp [intRange_succ]
    · intro id hid
      rcases List.mem_append.mp hid with hid | hid
      · have hb := h6 id hid
        refine ⟨hb.1, ?_⟩
        rw [List.length_append]
        omega
      · have hid' : id = (lookupId (st.albl_idmap ++
            [(dirName, (st.albl_idmap.length : Int))]) dirName).getD 0 := by
          simpa using hid
        rw [lookupId_append_self st.albl_idmap dirName _ hl] at hid'
        subst hid'
        simp
  · rw [if_neg hl]
    refine ⟨by simpa using h1, by simp [h2], by simp [h3], by simp [h4], h5, ?_⟩
    intro id hid
    rcases List.mem_append.mp hid with hid | hid
    · exact h6 id hid
    · cases hsome : lookupId st.albl_idmap dirName with
      | none => exact absurd hsome hl
      | some i =>
          have hid' : id = i := by
            simp [hsome] at hid
            exact hid
          subst hid'
          have hmem := lookupId_mem_of_some hsome
          rw [h5] at hmem
          exact mem_intRange hmem

theorem buildInv_processDir (testLbl : Nat) (c : RawClass)
    (st : BuildState) (d : String × List (String × Img)) (h : BuildInv st) :
    BuildInv (processDir testLbl c st d) :=
  foldl_preserve _ (fun st f hst => buildInv_processTestFile testLbl c d.1 st f hst) _ st h

theorem buildInv_processTrainFile (lblIdx : Nat) (st : BuildState) (f : String × Img)
    (h : BuildInv st) : BuildInv (processTrainFile lblIdx st f) := by
  obtain ⟨h1, h2, h3, h4, h5, h6⟩ := h
  exact ⟨by simp [processTrainFile, h1], h2, h3, h4, h5, h6⟩

theorem buildInv_processClass (lblIdx testLbl : Nat) (st : BuildState) (c : RawClass)
    (h : BuildInv st) : BuildInv (processClass lblIdx testLbl st c) := by
  unfold processClass
  refine foldl_preserve _ (fun st d hst => ?_) _ _
    (foldl_preserve _ (fun st d hst => buildInv_processDir testLbl c st d hst) _ st h)
  exact foldl_preserve _ (fun st f hst => buildInv_processTrainFile lblIdx st f hst) _ st hst

theorem buildInv_processClasses : ∀ (cs : List RawClass) (lblIdx : Nat) (st : BuildState),
    BuildInv st → BuildInv (processClasses lblIdx st cs)
  | [], _, _, h => h
  | c :: cs, lblIdx, st, h =>
      buildInv_processClasses cs (lblIdx + 1) _ (buildInv_processClass lblIdx lblIdx st c h)

theorem buildInv_initState : BuildInv initState := by
  refine ⟨rfl, rfl, rfl, rfl, by decide, ?_⟩
  intro id hid
  exact absurd hid (List.not_mem_nil id)

theorem sortByVal_eq_self_of_pairwise :
    ∀ l : List (String × Int), l.Pairwise (fun p q => p.2 < q.2) → sortByVal l = l := by
  intro l h
  induction l with
  | nil => rfl
  | cons p rest ih =>
      have hp := List.pairwise_cons.mp h
      show insertByVal p (sortByVal rest) = p :: rest
      rw [ih hp.2]
      cases rest with
      | nil => rfl
      | cons q qs =>
          have hq : p.2 < q.2 := hp.1 q (by simp)
          simp [insertByVal, hq]

theorem pairwise_snd_of_intRange {l : List (String × Int)}
    (h : l.map (fun p => p.2) = intRange l.length) :
    l.Pairwise (fun p q => p.2 < q.2) := by
  have h2 : (l.map (fun p => p.2)).Pairwise (· < ·) := by
    rw [h, intRange]
    exact (List.pairwise_lt_range l.length).map _
      (fun a b hab => by exact_mod_cast hab)
  exact (List.pairwise_map).mp h2

/-- C6: for every archive produced by the builder from any raw tree, the
train data and train labels have equal length, the four test-side
sequences (data, labels, maps, defect-category ids) share one length,
and every defect-category id occurring in the test id sequence is a
valid (nonnegative, in-range) index into the persisted defect-category
name sequence. -/
theorem archive_length_invariants (t : RawTree) :
    (download t).train_data.length = (download t).train_labels.length ∧
    (download t).test_data.length = (download t).test_labels.length ∧
    (download t).test_labels.length = (download t).test_maps.length ∧
    (download t).test_maps.length = (download t).test_anomaly_labels.length ∧
    ∀ id ∈ (download t).test_anomaly_labels,
      0 ≤ id ∧ id.toNat < (download t).anomaly_label_strings.length := by
  obtain ⟨h1, h2, h3, h4, h5, h6⟩ :=
    buildInv_processClasses t.classes 0 initState buildInv_initState
  have hsort : sortByVal (processClasses 0 initState t.classes).albl_idmap =
      (processClasses 0 initState t.classes).albl_idmap :=
    sortByVal_eq_self_of_pairwise _ (pairwise_snd_of_intRange h5)
  unfold download finalize
  refine ⟨h1, h2, by simpa using h3, by simpa using h4, ?_⟩
  intro id hid
  have hb := h6 id hid
  refine ⟨hb.1, ?_⟩
  simpa [hsort] using hb.2

def w6img : Img := ⟨1, [2, 2, 2]⟩

def w6class : RawClass := {
  test := [("good", [("000.png", w6img)])],
  train := [("good", [("000.png", w6img)])],
  groundTruth := fun _ _ => w6img }

def w6tree : RawTree := ⟨[w6class]⟩

theorem archive_length_invariants_witness :
    0 ≤ (0 : Int) ∧ (0 : Int).toNat < (download w6tree).anomaly_label_strings.length :=
  (archive_length_invariants w6tree).2.2.2.2 0 (by decide)

/-- One step of first-seen accumulation: append a name unless it is
already present. -/
def insertIfAbsent (acc : List String) (x : String) : List String :=
  if x ∈ acc then acc else acc ++ [x]

/-- Concatenation of the images of a list-valued function. -/
def flatMapList (f : α → List β) : List α → List β
  | [] => []
  | x :: xs => f x ++ flatMapList f xs

/-- The defect-category names emitted while iterating one test
defect-category directory: its name once per contained file, in the
file iteration order of lines 127-143. -/
def dirEmissions (d : String × List (String × Img)) : List String :=
  (sortStrPairs d.2).map (fun _ => d.1)

/-- The defect-category names emitted while iterating one class's test
directories in lexicographic order (line 126). -/
def classEmissions (c : RawClass) : List String :=
  flatMapList dirEmissions (sortStrPairs c.test)

/-- The full emission sequence of defect-category names in builder
traversal order: classes in label order, directories and files in
lexicographic order. -/
def traversalNames (t : RawTree) : List String :=
  flatMapList classEmissions t.classes

theorem idmapNames_processTestFile (testLbl : Nat) (c : RawClass) (dirName : String)
    (st : BuildState) (f : String × Img) :
    (processTestFile testLbl c dirName st f).albl_idmap.map (fun p => p.1) =
      insertIfAbsent (st.albl_idmap.map (fun p => p.1)) dirName := by
  simp only [processTestFile, insertIfAbsent]
  by_cases hl : lookupId st.albl_idmap dirName = none
  · rw [if_pos hl, if_neg ((lookupId_eq_none_iff _ _).mp hl), List.map_append]
    rfl
  · have hd : dirName ∈ st.albl_idmap.map (fun p => p.1) := by
      by_contra hcontra
      exact hl ((lookupId_eq_none_iff _ _).mpr hcontra)
    rw [if_neg hl, if_pos hd]

theorem idmapNames_files (testLbl : Nat) (c : RawClass) (dn : String) :
    ∀ (files : List (String × Img)) (st : BuildState),
    (files.foldl (processTestFile testLbl c dn) st).albl_idmap.map (fun p => p.1) =
      (files.map (fun _ => dn)).foldl insertIfAbsent (st.albl_idmap.map (fun p => p.1))
  | [], st => rfl
  | f :: fs, st => by
      rw [List.foldl_cons, List.map_cons, List.foldl_cons,
        idmapNames_files testLbl c dn fs _, idmapNames_processTestFile]

theorem idmapNames_processDir (testLbl : Nat) (c : RawClass)
    (st : BuildState) (d : String × List (String × Img)) :
    (processDir testLbl c st d).albl_idmap.map (fun p => p.1) =
      (dirEmissions d).foldl insertIfAbsent (st.albl_idmap.map (fun p => p.1)) := by
  rw [processDir, dirEmissions]
  exact idmapNames_files testLbl c d.1 (sortStrPairs d.2) st

theorem idmapNames_dirs (testLbl : Nat) (c : RawClass) :
    ∀ (dirs : List (String × List (String × Img))) (st : BuildState),
    (dirs.foldl (processDir testLbl c) st).albl_idmap.map (fun p => p.1) =
      (flatMapList dirEmissions dirs).foldl insertIfAbsent
        (st.albl_idmap.map (fun p => p.1))
  | [], st => rfl
  | d :: ds, st => by
      rw [List.foldl_cons, idmapNames_dirs testLbl c ds _, idmapNames_processDir,
        flatMapList, List.foldl_append]

theorem idmap_trainFiles (lblIdx : Nat) :
    ∀ (files : List (String × Img)) (st : BuildState),
    (files.foldl (processTrainFile lblIdx) st).albl_idmap = st.albl_idmap
  | [], _ => rfl
  | f :: fs, st => by
      rw [List.foldl_cons, idmap_trainFiles lblIdx fs _]
      rfl

theorem idmap_trainDirs (lblIdx : Nat) :
    ∀ (dirs : List (String × List (String × Img))) (st : BuildState),
    (dirs.foldl (fun st d => (sortStrPairs d.2).foldl (processTrainFile lblIdx) st)
      st).albl_idmap = st.albl_idmap
  | [], _ => rfl
  | d :: ds, st => by
      rw [List.foldl_cons, idmap_trainDirs lblIdx ds _, idmap_trainFiles]

theorem idmapNames_processClass (lblIdx testLbl : Nat) (st : BuildState) (c : RawClass) :
    (processClass lblIdx testLbl st c).albl_idmap.map (fun p => p.1) =
      (classEmissions c).foldl insertIfAbsent (st.albl_idmap.map (fun p => p.1)) := by
  simp only [processClass, classEmissions]
  rw [idmap_trainDirs, idmapNames_dirs]

theorem idmapNames_processClasses :
    ∀ (cs : List RawClass) (lblIdx : Nat) (st : BuildState),
    (processClasses lblIdx st cs).albl_idmap.map (fun p => p.1) =
      (flatMapList classEmissions cs).foldl insertIfAbsent
        (st.albl_idmap.map (fun p => p.1))
  | [], _, _ => rfl
  | c :: cs, lblIdx, st => by
      rw [processClasses, idmapNames_processClasses cs (lblIdx + 1) _,
        idmapNames_processClass, flatMapList, List.foldl_append]

theorem foldl_insertIfAbsent_head :
    ∀ (xs acc : List String) (a : String),
      acc[0]? = some a → (xs.foldl insertIfAbsent acc)[0]? = some a
  | [], _, _, h => h
  | x :: xs, acc, a, h => by
      rw [List.foldl_cons]
      refine foldl_insertIfAbsent_head xs _ a ?_
      rw [insertIfAbsent]
      by_cases hx : x ∈ acc
      · rw [if_pos hx]
        exact h
      · rw [if_neg hx]
        have hlen : 0 < acc.length := by
          cases acc with
          | nil => simp at h
          | cons b bs => simp
        rw [List.getElem?_append_left hlen]
        exact h

/-- C7: in every built archive, the persisted defect-category name
sequence is the first-seen deduplication of the normal sentinel name
followed by the builder's traversal emission sequence — so id 0 maps to
the normal sentinel and every later id is assigned in strictly
increasing first-seen order along the lexicographic traversal of the
test defect-category directories and files. -/
theorem archive_defect_id_order (t : RawTree) :
    (download t).anomaly_label_strings =
      (normal_anomaly_label :: traversalNames t).foldl insertIfAbsent [] ∧
    (download t).anomaly_label_strings[0]? = some normal_anomaly_label := by
  obtain ⟨h1, h2, h3, h4, h5, h6⟩ :=
    buildInv_processClasses t.classes 0 initState buildInv_initState
  have hsort := sortByVal_eq_self_of_pairwise _ (pairwise_snd_of_intRange h5)
  have hnames := idmapNames_processClasses t.classes 0 initState
  have hinit : initState.albl_idmap.map (fun p => p.1) = [normal_anomaly_label] := rfl
  have hstr : (download t).anomaly_label_strings =
      (flatMapList classEmissions t.classes).foldl insertIfAbsent
        [normal_anomaly_label] := by
    show (sortByVal (processClasses 0 initState t.classes).albl_idmap).map (fun p => p.1) = _
    rw [hsort, hnames, hinit]
  constructor
  · rw [hstr, List.foldl_cons]
    rfl
  · rw [hstr]
    exact foldl_insertIfAbsent_head _ [normal_anomaly_label] normal_anomaly_label rfl
